import Mathlib

/-!
# Verification of the EasyDel Flax Mistral module

A shallow embedding, over exact rational arithmetic, of the numeric core of
`src/lib/python/EasyDel/modules/mistral/modelling_mistral_flax.py`: the rotary
position encoding (`precompute_freq_cis`, `apply_rotary_emb`), grouped-query
head replication (`repeat_kv`), the incremental key/value cache
(`concatenate_to_cache_`), the attention mask construction and idealized
masked softmax of `FlaxMistralAttention.__call__`, the diagnostics
accumulation of `FlaxMistralDecoratorCollection.__call__`, the weight-tying
branch of `FlaxMistralForCausalLMModule.__call__`, and the partition rules of
`MistralConfig.get_partition_rules`.

Modelling conventions:
* Tensors are total functions from natural-number indices to `ℚ`; shapes are
  carried separately where a claim turns on them.  The batch axis is elided:
  every modelled operation acts pointwise and independently in batch.
* Floating-point transcendentals (`exp`, `cos`, `sin`, powers with rational
  exponents, the `1/sqrt(depth)` query scale) are abstracted as parameters in
  a `Prims` structure; theorems state the hypotheses they need of them
  (e.g. `cos² + sin² = 1`).  The additive mask bias, which the source sets to
  the dtype minimum (`jnp.finfo(dtype).min`, the representable-minimum
  floor), is idealized to exclusion from the softmax, its limiting meaning.
* Python dynamic-typing failures that the source can actually hit
  (`tuple + Array`, `bool + tuple`, a missing attribute) are modelled with
  `Except`, as are shape errors of `jnp.broadcast_to`.
-/

/-! ## Abstracted numeric primitives -/

/-- Abstract stand-ins for the floating-point primitives the source applies:
`ex` for the softmax exponential, `cosf`/`sinf` for the trigonometric tables
of `precompute_freq_cis`, `rpow` for real exponentiation `b ** e` with
rational exponent, and `qscale` for the `1/sqrt(head_dim)` query scaling
inside `nn.dot_product_attention_weights`. -/
structure Prims where
  ex : ℚ → ℚ
  cosf : ℚ → ℚ
  sinf : ℚ → ℚ
  rpow : ℚ → ℚ → ℚ
  qscale : ℚ

/-- The fields of `MistralConfig` (lines 19-85) the verified claims depend
on.  `rope_theta` defaults to 10000 in the source config. -/
structure MistralCfg where
  hidden_size : ℕ
  num_attention_heads : ℕ
  num_key_value_heads : ℕ
  max_position_embeddings : ℕ
  c_max_position_embeddings : ℕ
  rope_theta : ℚ

/-! ## Rotary position encoding

`precompute_freq_cis` (source lines 196-217) builds, for each absolute
position `t` and frequency index `u < dim/2`, the complex unit
`cos(t·f_u) + i·sin(t·f_u)` with `f_u = 1 / theta^(2u/dim)`.  The `linear`
scaling method divides positions by `scaling_factor` first; `dynamic`
recomputes the base; any other non-`None` method raises `ValueError`. -/

/-- One table entry: the cosine/sine pair of `t·f`. -/
def rowEntry (P : Prims) (t f : ℚ) : ℚ × ℚ :=
  (P.cosf (t * f), P.sinf (t * f))

/-- `freq = 1.0 / (theta ** (arange(0, dim, 2) / dim))` (line 200). -/
def baseFreq (P : Prims) (theta : ℚ) (dim : ℕ) (u : ℕ) : ℚ :=
  1 / P.rpow theta (((2 * u : ℕ) : ℚ) / (dim : ℚ))

/-- The recomputed base of the `dynamic` method (lines 207-209):
`theta * ((scaling_factor * end / end) - (scaling_factor - 1)) ** (dim / (dim - 2))`. -/
def dynBase (P : Prims) (theta sf : ℚ) (dim endLen : ℕ) : ℚ :=
  theta * P.rpow ((sf * (endLen : ℚ)) / (endLen : ℚ) - (sf - 1))
    ((dim : ℚ) / ((dim : ℚ) - 2))

/-- `precompute_freq_cis` (lines 196-217).  Returns the table as a function
`position ↦ frequency index ↦ (cos, sin)`; an unknown method is the
source's `raise ValueError(...)`. -/
def precompute_freq_cis (P : Prims) (method : Option String) (dim endLen : ℕ)
    (theta sf : ℚ) : Except String (ℕ → ℕ → ℚ × ℚ) :=
  match method with
  | none =>
      Except.ok (fun t u => rowEntry P (t : ℚ) (baseFreq P theta dim u))
  | some m =>
      if m = "linear" then
        Except.ok (fun t u => rowEntry P ((t : ℚ) / sf) (baseFreq P theta dim u))
      else if m = "dynamic" then
        Except.ok (fun t u => rowEntry P (t : ℚ) (baseFreq P (dynBase P theta sf dim endLen) dim u))
      else
        Except.error ("unknown " ++ m ++ " method for precompute_freq_cis")

/-- `apply_rotary_emb` (lines 220-241): adjacent channel pairs `(2u, 2u+1)`
are read as one complex number and multiplied by the table row of their
sequence position (`fr` is the row already gathered by
`jnp.take(freq_cis, position_ids, axis=0)`, line 342; the same row is
broadcast over the head axis, line 233).  Indices: sequence, head, channel. -/
def apply_rotary_emb (fr : ℕ → ℕ → ℚ × ℚ) (x : ℕ → ℕ → ℕ → ℚ) :
    ℕ → ℕ → ℕ → ℚ :=
  fun i h ch =>
    let u := ch / 2
    if ch % 2 = 0 then
      x i h (2 * u) * (fr i u).1 - x i h (2 * u + 1) * (fr i u).2
    else
      x i h (2 * u) * (fr i u).2 + x i h (2 * u + 1) * (fr i u).1

/-- The frequency table `FlaxMistralModule.setup` builds (lines 684-689):
`precompute_freq_cis(method=None, scaling_factor=1.0,
dim=hidden_size // num_attention_heads, end=max_position_embeddings * 2)`.
The `theta` keyword is NOT passed, so the signature default `10000.0`
(line 198) is used; `config.rope_theta` never reaches the call. -/
def moduleFreqCis (P : Prims) (cfg : MistralCfg) : Except String (ℕ → ℕ → ℚ × ℚ) :=
  precompute_freq_cis P none (cfg.hidden_size / cfg.num_attention_heads)
    (cfg.max_position_embeddings * 2) 10000 1

/-! ## Grouped-query head replication -/

/-- `repeat_kv` (lines 160-169).  For `n_rep ≠ 1` the source inserts a new
axis at position 2 of `[bs, s, n_kv, hd]`, repeats it `n_rep` times giving
`[bs, s, n_rep, n_kv, hd]`, and reshapes to `[bs, s, n_kv * n_rep, hd]`.
Row-major flattening of the axis pair `(n_rep, n_kv)` sends flat head index
`h = r * n_kv + j` to source kv head `j = h % n_kv`. -/
def repeat_kv (nKv nRep : ℕ) (x : ℕ → ℕ → ℕ → ℚ) : ℕ → ℕ → ℕ → ℚ :=
  if nRep = 1 then x else fun s h d => x s (h % nKv) d

/-- Head count of the `repeat_kv` result: unchanged for `n_rep = 1`, else
`n_kv * n_rep` (the reshape target on lines 167-169). -/
def repeatKvHeads (nKv nRep : ℕ) : ℕ :=
  if nRep = 1 then nKv else nKv * nRep

/-! ## Masked attention weights

`nn.dot_product_attention_weights` (lines 369-377) computes
`softmax(q·k / sqrt(depth) + bias)` where `bias` is `0` on allowed pairs and
the dtype minimum on disallowed ones (lines 363-367).  Idealizing the floor
to full exclusion, a disallowed key gets weight `0` and the allowed keys are
normalized among themselves. -/

/-- Scaled attention score of query position `i` (head `h`) against key
position `j`. -/
def attnScores (P : Prims) (hd : ℕ) (q k : ℕ → ℕ → ℕ → ℚ) (h i j : ℕ) : ℚ :=
  (∑ d ∈ Finset.range hd, q i h d * k j h d) * P.qscale

/-- Masked softmax over key positions `j < klen`. -/
def softmaxMasked (P : Prims) (klen : ℕ) (allowed : ℕ → Bool) (f : ℕ → ℚ) (j : ℕ) : ℚ :=
  if allowed j then
    P.ex (f j) / ∑ j' ∈ (Finset.range klen).filter (fun j' => allowed j' = true), P.ex (f j')
  else 0

/-- Attention weight of query `i` (head `h`) on key `j` under mask `mask`. -/
def attnWeight (P : Prims) (hd klen : ℕ) (mask : ℕ → ℕ → Bool)
    (q k : ℕ → ℕ → ℕ → ℚ) (h i j : ℕ) : ℚ :=
  softmaxMasked P klen (mask i) (attnScores P hd q k h i) j

/-- Attention output `einsum("...hqk,...khd->...qhd", attn_weight, v)`
(line 381) at query `i`, head `h`, channel `d`. -/
def attnOutput (P : Prims) (hd klen : ℕ) (mask : ℕ → ℕ → Bool)
    (q k v : ℕ → ℕ → ℕ → ℚ) (h i d : ℕ) : ℚ :=
  ∑ j ∈ Finset.range klen, attnWeight P hd klen mask q k h i j * v j h d

/-- Spec-side comparator for the grouped-query claim: the score of query
head `h` taken directly against a single un-replicated key head `kvh`. -/
def attnScoresSingle (P : Prims) (hd : ℕ) (q kO : ℕ → ℕ → ℕ → ℚ)
    (kvh h i j : ℕ) : ℚ :=
  (∑ d ∈ Finset.range hd, q i h d * kO j kvh d) * P.qscale

/-- Spec-side comparator: attention weight of query head `h` computed
directly against key head `kvh`. -/
def attnWeightSingle (P : Prims) (hd klen : ℕ) (mask : ℕ → ℕ → Bool)
    (q kO : ℕ → ℕ → ℕ → ℚ) (kvh h i j : ℕ) : ℚ :=
  softmaxMasked P klen (mask i) (attnScoresSingle P hd q kO kvh h i) j

/-- Spec-side comparator: attention output of query head `h` computed
directly against key/value head `kvh`. -/
def attnOutputSingle (P : Prims) (hd klen : ℕ) (mask : ℕ → ℕ → Bool)
    (q kO vO : ℕ → ℕ → ℕ → ℚ) (kvh h i d : ℕ) : ℚ :=
  ∑ j ∈ Finset.range klen, attnWeightSingle P hd klen mask q kO kvh h i j * vO j kvh d

/-! ## The key/value cache

`concatenate_to_cache_` (lines 297-317).  On the creating call the `cache`
variables are zero buffers of the shape of the **post-`repeat_kv`** key
tensor and the cursor `index` is `0`.  On later calls the new keys/values
are written with `jax.lax.dynamic_update_slice` — whose start index is
clamped into `[0, max_len - new_len]`, never raising — and the cursor is
advanced by the query length unconditionally.  No capacity check exists. -/

/-- Per-layer cache state: buffer extents plus buffer contents and cursor
(batch axis elided). -/
structure KVCache where
  maxLen : ℕ
  nHeads : ℕ
  headDim : ℕ
  keyBuf : ℕ → ℕ → ℕ → ℚ
  valBuf : ℕ → ℕ → ℕ → ℚ
  index : ℕ

/-- The cache as created by the first (initializing) call (lines 300-302):
zero-filled buffers shaped like the current key tensor, cursor `0`. -/
def initCacheFromCall (len nh hd : ℕ) : KVCache :=
  ⟨len, nh, hd, fun _ _ _ => 0, fun _ _ _ => 0, 0⟩

/-- The cache the model actually creates for `init_cache(batch, max_length)`:
the key tensor passed in has already been through `repeat_kv` with
`num_key_value_groups = num_attention_heads // num_key_value_heads`
(lines 280, 344-347), so the buffers carry the replicated head count. -/
def initCacheForModel (cfg : MistralCfg) (maxLength : ℕ) : KVCache :=
  initCacheFromCall maxLength
    (repeatKvHeads cfg.num_key_value_heads
      (cfg.num_attention_heads / cfg.num_key_value_heads))
    (cfg.hidden_size / cfg.num_attention_heads)

/-- `jax.lax.dynamic_update_slice` start-index clamping: the requested start
`c` is clamped so the length-`n` update fits inside length `L`. -/
def dusStart (L c n : ℕ) : ℕ := min c (L - n)

/-- The append of `concatenate_to_cache_` on an existing cache
(lines 303-311): write `newLen` rows at the (clamped) cursor, advance the
cursor by `newLen`. -/
def appendKV (cache : KVCache) (newLen : ℕ) (k v : ℕ → ℕ → ℕ → ℚ) : KVCache :=
  let st := dusStart cache.maxLen cache.index newLen
  { cache with
    keyBuf := fun s h d =>
      if st ≤ s ∧ s < st + newLen then k (s - st) h d else cache.keyBuf s h d
    valBuf := fun s h d =>
      if st ≤ s ∧ s < st + newLen then v (s - st) h d else cache.valBuf s h d
    index := cache.index + newLen }

/-! ## Attention masks

`nn.make_causal_mask` allows key `j` for query `i` iff `j ≤ i`.  With an
active cache the source slices the causal mask at row start
`mask_shift = self.variables['cache']['index']` (line 352) — read **after**
`concatenate_to_cache_` has already advanced the cursor (line 311), so
`mask_shift = old_cursor + query_len` — and combines it with the pad mask
`arange(max_len) < new_cursor` (lines 312-316) and the caller mask.  The
boolean combination below is the elementwise meaning of
`nn.combine_masks` across the broadcast axes. -/

/-- `nn.make_causal_mask` entry (line 690): query `i` may see key `j` iff
`j ≤ i`. -/
def make_causal_mask (i j : ℕ) : Bool := decide (j ≤ i)

/-- The sliced causal mask of the cached branch (lines 351-356):
`lax.dynamic_slice(causal_mask, (0, 0, mask_shift, 0), (1, 1, q_len, dl))`
with the row start clamped into `[0, cmax - q_len]`. -/
def cachedCausal (cmax qLen shift i j : ℕ) : Bool :=
  make_causal_mask (min shift (cmax - qLen) + i) j

/-- One cached attention call on the mask/cache path: append the new
keys/values, then build the combined mask (pad ∧ caller ∧ sliced-causal) and
the idealized attention weights over the full key buffer
(`k_l = dl = max_len`, lines 349-356).  Returns the updated cache, the
combined boolean mask, and the weights. -/
def attentionCallCached (P : Prims) (cmax : ℕ) (cache : KVCache) (qLen : ℕ)
    (caller : ℕ → Bool) (q k v : ℕ → ℕ → ℕ → ℚ) :
    KVCache × (ℕ → ℕ → Bool) × (ℕ → ℕ → ℕ → ℚ) :=
  let c' := appendKV cache qLen k v
  let m : ℕ → ℕ → Bool := fun i j =>
    (decide (j < c'.index) && caller j) && cachedCausal cmax qLen c'.index i j
  (c', m, fun h i j => attnWeight P cache.headDim c'.maxLen m q c'.keyBuf h i j)

/-- The combined mask of a cache-free call (lines 358-362): caller mask and
the `[:q_l, :k_l]` slice of the causal mask. -/
def attentionMaskNoCache (caller : ℕ → Bool) (i j : ℕ) : Bool :=
  caller j && make_causal_mask i j

/-! ## Mask shape plumbing

`FlaxMistralModule.__call__` reshapes a 2-d attention mask to
`[b, 1, 1, s]` (lines 707-709).  `FlaxMistralAttention.__call__` then runs
`jnp.broadcast_to(jnp.expand_dims(attention_mask, axis=(-3, -2)),
causal_mask.shape)` (line 361), which inserts two singleton axes before the
last axis and broadcasts to the rank-4 causal mask shape.  NumPy/JAX
broadcasting never drops axes: broadcasting an array to a shape with fewer
dimensions raises `ValueError`. -/

/-- `jnp.expand_dims(·, axis=(-3, -2))`: for a rank-`r` input the result has
rank `r + 2` with the two new singleton axes at result positions `r - 1` and
`r`, i.e. just before the last original axis. -/
def expandDimsLast2 (sh : List ℕ) : List ℕ :=
  sh.dropLast ++ [1, 1] ++ sh.drop (sh.length - 1)

/-- Trailing-aligned axis compatibility of NumPy broadcasting. -/
def shapesCompat : List ℕ → List ℕ → Bool
  | [], [] => true
  | a :: as, b :: bs => (a == 1 || a == b) && shapesCompat as bs
  | _, _ => false

/-- `jnp.broadcast_to(src, tgt)`: fails when the source has more axes than
the target, or when a trailing-aligned axis is neither `1` nor equal. -/
def broadcast_to (src tgt : List ℕ) : Except String (List ℕ) :=
  if tgt.length < src.length then
    Except.error "ValueError: cannot broadcast to fewer dimensions"
  else if shapesCompat src (tgt.drop (tgt.length - src.length)) then
    Except.ok tgt
  else
    Except.error "ValueError: incompatible shapes for broadcasting"

/-- Line 361 on shapes: expand the attention-mask shape by two axes, then
broadcast it to the causal-mask shape. -/
def attnMaskBroadcastStep (amaskSh causalSh : List ℕ) : Except String (List ℕ) :=
  broadcast_to (expandDimsLast2 amaskSh) causalSh

/-- Shape of the mask `FlaxMistralModule.__call__` hands to every layer for
a 2-d caller mask (lines 707-709). -/
def moduleMaskShape (b s : ℕ) : List ℕ := [b, 1, 1, s]

/-- The mask plumbing of one cache-free forward over `S` tokens: the module
mask `[b,1,1,S]` against the sliced causal mask
`[b, 1, q_l, k_l] = [b, 1, S, S]` (lines 358-361). -/
def forwardMaskShapeNoCache (b S : ℕ) : Except String (List ℕ) :=
  attnMaskBroadcastStep (moduleMaskShape b S) [b, 1, S, S]

/-- The mask plumbing of one cached decode step of `S` new tokens against a
length-`L` cache: after `concatenate_to_cache_` the attention mask is
`combine_masks(pad [b,1,S,L], caller [b,1,1,L]) = [b,1,S,L]` (lines 312-316)
and the sliced causal mask is `[b,1,S,L]` (lines 351-356), reaching the same
line 361. -/
def decodeStepMaskShape (b L S : ℕ) : Except String (List ℕ) :=
  attnMaskBroadcastStep [b, 1, S, L] [b, 1, S, L]

/-! ## Diagnostics accumulation

`FlaxMistralDecoderLayer.__call__` (lines 431-448) and
`FlaxMistralDecoratorCollection.__call__` (lines 613-653) manipulate Python
tuples.  The relevant dynamic semantics: `tuple + tuple` concatenates; any
other `+` among the values involved raises `TypeError`. -/

/-- The Python values flowing through the diagnostics plumbing: jax arrays
(content as a rational tensor), tuples, booleans, `None`. -/
inductive PyV where
  | arr (a : ℕ → ℚ)
  | tup (xs : List PyV)
  | pybool (b : Bool)
  | pynone

/-- Python `+` on those values: only tuple-with-tuple succeeds. -/
def pyAdd : PyV → PyV → Except String PyV
  | PyV.tup xs, PyV.tup ys => Except.ok (PyV.tup (xs ++ ys))
  | PyV.tup _, _ => Except.error "TypeError: can only concatenate tuple to tuple"
  | _, _ => Except.error "TypeError: unsupported operand types for +"

/-- Python indexing `t[i]` on a tuple. -/
def pyGet : PyV → ℕ → Except String PyV
  | PyV.tup xs, i =>
      match xs.get? i with
      | some x => Except.ok x
      | none => Except.error "IndexError: tuple index out of range"
  | _, _ => Except.error "TypeError: not subscriptable"

/-- Using a value as a jax array. -/
def asArr : PyV → Except String (ℕ → ℚ)
  | PyV.arr a => Except.ok a
  | _ => Except.error "TypeError: expected an array"

/-- `FlaxMistralAttention.__call__` line 384:
`outputs = (out, attn_output) if output_attentions else (out,)` — note the
second component is `attn_output` (the attention-weighted values), not the
attention weights. -/
def attnOutputsTuple (oa : Bool) (outA attnA : ℕ → ℚ) : PyV :=
  if oa then PyV.tup [PyV.arr outA, PyV.arr attnA] else PyV.tup [PyV.arr outA]

/-- `FlaxMistralDecoderLayer.__call__` lines 445-448:
`outputs = (hidden_state,)`, then, when attentions are requested,
`outputs += attention_output[1]` — adding a raw array to a tuple. -/
def decoderLayerOutputs (oa : Bool) (hOut attnA : ℕ → ℚ) : Except String PyV := do
  let attention_output := attnOutputsTuple oa hOut attnA
  let outputs := PyV.tup [PyV.arr hOut]
  if oa then
    let second ← pyGet attention_output 1
    pyAdd outputs second
  else
    pure outputs

/-- The loop body state of `FlaxMistralDecoratorCollection.__call__`
(lines 625-653), iterated once per layer.  `layerF i h` abstracts the
numeric result of layer `i` on hidden state `h` as the pair
(hidden output, attn_output array); the plumbing around it is translated
literally: `all_hidden_states` collects the pre-layer hidden state; the
attention accumulation line 651 reads `output_attentions += (output[1],)`,
adding a tuple to the **boolean flag**, while `all_attentions` is never
updated. -/
def collectionLoop (layerF : ℕ → (ℕ → ℚ) → (ℕ → ℚ) × (ℕ → ℚ)) (oa ohs : Bool) :
    ℕ → ℕ → (ℕ → ℚ) → PyV → PyV → PyV →
    Except String ((ℕ → ℚ) × PyV × PyV)
  | 0, _, h, allH, allA, _ => Except.ok (h, allH, allA)
  | rem + 1, i, h, allH, allA, oaV => do
      let allH' ← if ohs then pyAdd allH (PyV.tup [PyV.arr h]) else pure allH
      let pr := layerF i h
      let outs ← decoderLayerOutputs oa pr.1 pr.2
      let h0V ← pyGet outs 0
      let h' ← asArr h0V
      let oaV' ← if oa then pyAdd oaV (PyV.tup [PyV.arr pr.2]) else pure oaV
      collectionLoop layerF oa ohs rem (i + 1) h' allH' allA oaV'

/-- `FlaxMistralDecoratorCollection.__call__` over `n` layers:
`all_attentions = () if output_attentions else None`,
`all_hidden_states = () if output_hidden_states else None`, then the loop;
returns `(hidden_state, all_hidden_states, all_attentions)`. -/
def collectionCall (layerF : ℕ → (ℕ → ℚ) → (ℕ → ℚ) × (ℕ → ℚ)) (n : ℕ)
    (oa ohs : Bool) (h0 : ℕ → ℚ) : Except String ((ℕ → ℚ) × PyV × PyV) :=
  collectionLoop layerF oa ohs n 0 h0
    (if ohs then PyV.tup [] else PyV.pynone)
    (if oa then PyV.tup [] else PyV.pynone)
    (PyV.pybool oa)

/-! ## The language-model head

`FlaxMistralForCausalLMModule.setup` (lines 750-764) defines exactly the
attributes `model` and `lm_head`.  The tied branch of `__call__`
(lines 800-802) reads `self.transformer.variables["params"]["wte"]` — an
attribute this module does not have (and a parameter name, `wte`, that the
inner module does not use: its embedding lives under `embed_tokens`). -/

/-- Attribute names of `FlaxMistralForCausalLMModule`. -/
inductive PyAttr where
  | model
  | lmHead
  | transformer
deriving DecidableEq

/-- The attributes `setup` created (lines 750-764). -/
def causalLMAttrs : List PyAttr := [PyAttr.model, PyAttr.lmHead]

/-- Python attribute lookup. -/
def pyGetAttr (attrs : List PyAttr) (a : PyAttr) : Except String Unit :=
  if a ∈ attrs then Except.ok () else
    Except.error "AttributeError: no attribute transformer"

/-- A bias-free `nn.Dense` application: `y[s, o] = Σ_i x[s, i] · W[i, o]`. -/
def denseNoBias (w : ℕ → ℕ → ℚ) (inDim : ℕ) (x : ℕ → ℕ → ℚ) : ℕ → ℕ → ℚ :=
  fun s o => ∑ i ∈ Finset.range inDim, x s i * w i o

/-- The logits projection of `FlaxMistralForCausalLMModule.__call__`
(lines 798-804): the tied branch first resolves `self.transformer` (which
fails) and would then look up the parameter `wte` (which the model also does
not define); the untied branch applies `lm_head`. -/
def causalLMProject (tie : Bool) (wLm : ℕ → ℕ → ℚ) (hDim : ℕ)
    (hs : ℕ → ℕ → ℚ) : Except String (ℕ → ℕ → ℚ) :=
  if tie then
    (pyGetAttr causalLMAttrs PyAttr.transformer).bind fun _ =>
      Except.error "KeyError: wte"
  else
    Except.ok (denseNoBias wLm hDim hs)

/-! ## Partition rules

`MistralConfig.get_partition_rules(fully_fsdp)` (lines 87-123) returns an
ordered tuple of `(regex, PartitionSpec)` rules ending in the wildcard
`('.*', ...)`.  A `PartitionSpec` is modelled as its axis list
(`PS(None) = [none]`, `PS("fsdp", "dp") = [some "fsdp", some "dp"]`, …).
The regexes in these rules are `/`-joined literals with at most one
alternation group, so searching a rule in a name is exactly: one of the
rule's expanded literal alternatives occurs as a contiguous substring of the
name; `'.*'` (the empty literal) occurs in every name. -/

/-- A partition spec: the tuple of mesh-axis names (or `None`). -/
abbrev PSpec := List (Option String)

/-- Parameter names as character lists. -/
abbrev ParamName := List Char

/-- Whether `p` is a prefix of `l`. -/
def leadsWith : List Char → List Char → Bool
  | [], _ => true
  | _ :: _, [] => false
  | a :: as, b :: bs => a == b && leadsWith as bs

/-- Whether `p` occurs as a contiguous substring of `l`. -/
def containsSub (p : List Char) : List Char → Bool
  | [] => leadsWith p []
  | c :: cs => leadsWith p (c :: cs) || containsSub p cs

/-- The expanded alternatives of the rule
`"self_attn/(q_proj|k_proj|v_proj)/kernel"` (lines 93, 110). -/
def ruleQKV : List (List Char) :=
  ["self_attn/q_proj/kernel".data, "self_attn/k_proj/kernel".data,
   "self_attn/v_proj/kernel".data]

/-- The balanced profile, `fully_fsdp = False` (lines 89-105). -/
def partitionRulesBalanced : List (List (List Char) × PSpec) :=
  [ (["model/embed_tokens/embedding".data], [some "dp", some "fsdp"]),
    (ruleQKV, [some "fsdp", some "dp"]),
    (["self_attn/o_proj/kernel".data], [some "dp", some "fsdp"]),
    (["mlp/gate_proj/kernel".data], [some "fsdp", some "dp"]),
    (["mlp/down_proj/kernel".data], [some "dp", some "fsdp"]),
    (["mlp/up_proj/kernel".data], [some "fsdp", some "dp"]),
    (["input_layernorm/kernel".data], [none]),
    (["post_attention_layernorm/kernel".data], [none]),
    (["model/norm/kernel".data], [none]),
    (["lm_head/kernel".data], [some "fsdp", some "dp"]),
    ([[]], [none]) ]

/-- The fully-sharded profile, `fully_fsdp = True` (lines 106-123). -/
def partitionRulesFsdp : List (List (List Char) × PSpec) :=
  [ (["model/embed_tokens/embedding".data], [some "fsdp"]),
    (ruleQKV, [some "fsdp"]),
    (["self_attn/o_proj/kernel".data], [some "fsdp"]),
    (["mlp/gate_proj/kernel".data], [some "fsdp"]),
    (["mlp/down_proj/kernel".data], [some "fsdp"]),
    (["mlp/up_proj/kernel".data], [some "fsdp"]),
    (["input_layernorm/kernel".data], [none]),
    (["post_attention_layernorm/kernel".data], [none]),
    (["model/norm/kernel".data], [none]),
    (["lm_head/kernel".data], [some "fsdp"]),
    ([[]], [some "fsdp"]) ]

/-- `get_partition_rules` (lines 87-123): the balanced tuple when
`fully_fsdp` is false, else the fully-sharded tuple. -/
def get_partition_rules (fullyFsdp : Bool) : List (List (List Char) × PSpec) :=
  if fullyFsdp then partitionRulesFsdp else partitionRulesBalanced

/-- Modelled from the spec: the rule matcher (`match_partition_rules`,
consumed from EasyDel's flax utilities, line 16) is not under `src/`.  The
spec says `resolve(tensor_name)` "evaluates rules in declared order, returns
the first match; a trailing wildcard rule guarantees every tensor resolves".
A rule matches when one of its expanded literal alternatives occurs in the
name (regex search). -/
def resolveRules : List (List (List Char) × PSpec) → List Char → Option PSpec
  | [], _ => none
  | (pats, ps) :: rest, name =>
      if pats.any (fun p => containsSub p name) then some ps
      else resolveRules rest name

/-- The per-layer parameter leaf paths of `FlaxMistralDecoderLayer`
(lines 394-418 and 250-262). -/
def layerParamSuffixes : List (List Char) :=
  ["self_attn/q_proj/kernel".data, "self_attn/k_proj/kernel".data,
   "self_attn/v_proj/kernel".data, "self_attn/o_proj/kernel".data,
   "mlp/gate_proj/kernel".data, "mlp/down_proj/kernel".data,
   "mlp/up_proj/kernel".data, "input_layernorm/kernel".data,
   "post_attention_layernorm/kernel".data]

/-- The full path of a layer parameter: the `FlaxMistralForCausalLMModule`
scope is `model`, its stack is `layers`, its blocks are named `str(i)`
(lines 603-611, 672-677, 751). -/
def layerParamName (i : ℕ) (suf : List Char) : List Char :=
  "model/layers/".data ++ (Nat.repr i).data ++ "/".data ++ suf

/-- Every parameter name the causal-LM model produces with `n` decoder
layers (embedding, per-layer projections and norms, final norm, lm head). -/
def mistralParamNames (n : ℕ) : List (List Char) :=
  ["model/embed_tokens/embedding".data] ++
  (List.range n).flatMap (fun i => layerParamSuffixes.map (layerParamName i)) ++
  ["model/norm/kernel".data, "lm_head/kernel".data]

/-! ## Concrete instances used by witnesses and counterexamples -/

/-- A primitive instantiation on the unit circle: `cos ≡ 1`, `sin ≡ 0`,
`exp ≡ 1`. -/
def P1 : Prims :=
  { ex := fun _ => 1, cosf := fun _ => 1, sinf := fun _ => 0,
    rpow := fun _ _ => 1, qscale := 1 }

/-- A primitive instantiation whose power function distinguishes bases:
`b ** e = b` for nonzero exponents, `1` at exponent `0`; `cos`/`sin` read
back the angle. -/
def Pdist : Prims :=
  { ex := fun _ => 1, cosf := id, sinf := id,
    rpow := fun b e => if e = 0 then 1 else b, qscale := 1 }

/-- A small config: 2 query heads over 1 kv head, head_dim 4,
`rope_theta = 5` (differing from the hardcoded 10000). -/
def cfg8 : MistralCfg :=
  { hidden_size := 8, num_attention_heads := 2, num_key_value_heads := 1,
    max_position_embeddings := 4, c_max_position_embeddings := 8,
    rope_theta := 5 }

/-- The table `precompute_freq_cis P1 none 4 8 10000 1` produces. -/
def tblW : ℕ → ℕ → ℚ × ℚ :=
  fun t u => rowEntry P1 (t : ℚ) (baseFreq P1 10000 4 u)

/-- The all-zero rank-3 tensor. -/
def zT3 : ℕ → ℕ → ℕ → ℚ := fun _ _ _ => 0

/-- A fresh length-4 cache with one head and one channel, as the
initializing call creates it. -/
def c3cache : KVCache := initCacheFromCall 4 1 1

/-- A partially filled cache: length 4, cursor 2. -/
def cW : KVCache :=
  { maxLen := 4, nHeads := 1, headDim := 1, keyBuf := zT3, valBuf := zT3, index := 2 }

/-! ## Helper lemmas -/

/-- A list leads with itself. -/
theorem leadsWith_self (l : List Char) : leadsWith l l = true := by
  induction l with
  | nil => rfl
  | cons a as ih => simp [leadsWith, ih]

/-- A suffix occurs as a substring. -/
theorem containsSub_suffix (p pre : List Char) : containsSub p (pre ++ p) = true := by
  induction pre with
  | nil =>
      cases p with
      | nil => rfl
      | cons c cs => simp [containsSub, leadsWith_self]
  | cons b bs ih => simp [containsSub, ih]

/-- The empty pattern occurs in every list (the `'.*'` wildcard). -/
theorem containsSub_nil (l : List Char) : containsSub [] l = true := by
  cases l <;> rfl

/-- First-match resolution succeeds with a non-empty spec as soon as every
rule's spec is non-empty and some rule matches. -/
theorem resolveRules_total (rules : List (List (List Char) × PSpec)) (name : List Char)
    (hne : ∀ pr ∈ rules, pr.2 ≠ ([] : List (Option String)))
    (hmatch : ∃ pr ∈ rules, pr.1.any (fun p => containsSub p name) = true) :
    ∃ ps, resolveRules rules name = some ps ∧ ps ≠ [] := by
  induction rules with
  | nil =>
      obtain ⟨pr, hpr, _⟩ := hmatch
      exact absurd hpr (List.not_mem_nil pr)
  | cons r rest ih =>
      obtain ⟨pats, ps⟩ := r
      by_cases hc : pats.any (fun p => containsSub p name) = true
      · exact ⟨ps, by simp [resolveRules, hc], hne ⟨pats, ps⟩ (by simp)⟩
      · obtain ⟨pr, hpr, hprm⟩ := hmatch
        rcases List.mem_cons.mp hpr with rfl | hpr'
        · exact absurd hprm hc
        · obtain ⟨ps', h1, h2⟩ :=
            ih (fun pr h => hne pr (List.mem_cons_of_mem _ h)) ⟨pr, hpr', hprm⟩
          exact ⟨ps', by simp [resolveRules, hc, h1], h2⟩

/-- `repeat_kv` reads head `h` from source kv head `h % n_kv`. -/
theorem repeat_kv_apply (nKv nRep : ℕ) (x : ℕ → ℕ → ℕ → ℚ) (h : ℕ)
    (hh : h < nKv * nRep) (s d : ℕ) :
    repeat_kv nKv nRep x s h d = x s (h % nKv) d := by
  unfold repeat_kv
  split
  · next h1 =>
      subst h1
      rw [Nat.mod_eq_of_lt (by omega)]
  · rfl

/-- Core rotation identity: multiplying adjacent channel pairs by a
unit-modulus pair preserves the sum of squares over an even channel count. -/
theorem rotary_sum_sq (fr : ℕ → ℕ → ℚ × ℚ) (x : ℕ → ℕ → ℕ → ℚ) (i h : ℕ)
    (hu : ∀ u, (fr i u).1 ^ 2 + (fr i u).2 ^ 2 = 1) (m : ℕ) :
    ∑ ch ∈ Finset.range (2 * m), apply_rotary_emb fr x i h ch ^ 2
      = ∑ ch ∈ Finset.range (2 * m), x i h ch ^ 2 := by
  induction m with
  | zero => simp
  | succ m ih =>
      have h2 : 2 * (m + 1) = 2 * m + 1 + 1 := by ring
      rw [h2, Finset.sum_range_succ, Finset.sum_range_succ,
          Finset.sum_range_succ, Finset.sum_range_succ, ih]
      have e0 : apply_rotary_emb fr x i h (2 * m)
          = x i h (2 * m) * (fr i m).1 - x i h (2 * m + 1) * (fr i m).2 := by
        unfold apply_rotary_emb
        have hm : (2 * m) % 2 = 0 := by omega
        have hd : (2 * m) / 2 = m := by omega
        simp [hm, hd]
      have e1 : apply_rotary_emb fr x i h (2 * m + 1)
          = x i h (2 * m) * (fr i m).2 + x i h (2 * m + 1) * (fr i m).1 := by
        unfold apply_rotary_emb
        have hm : (2 * m + 1) % 2 = 1 := by omega
        have hd : (2 * m + 1) / 2 = m := by omega
        simp [hm, hd]
      rw [e0, e1]
      linear_combination (x i h (2 * m) ^ 2 + x i h (2 * m + 1) ^ 2) * hu m

/-! ## Claim theorems -/

/-- Claim C1 (incremental/batch equivalence of logits).  The code cannot
exhibit the claimed equivalence because no forward call through the module
produces logits at all: the module pre-reshapes the caller attention mask to
rank 4 (lines 707-709) and the attention layer then expands it by two more
axes and asks `jnp.broadcast_to` to broadcast the rank-6 result down to the
rank-4 causal-mask shape (line 361), which raises `ValueError`.  Evaluated
here for the claim's scenario: a cache-free pass over `S = 3` tokens, and a
single-token cached step against a length-4 cache. -/
theorem mistral_forward_mask_rank_error :
    forwardMaskShapeNoCache 1 3
        = Except.error "ValueError: cannot broadcast to fewer dimensions" ∧
    decodeStepMaskShape 1 4 1
        = Except.error "ValueError: cannot broadcast to fewer dimensions" := by
  constructor <;> rfl

/-- Claim C2 (amended): `concatenate_to_cache_` performs no capacity check
and never fails.  When `cursor + new_tokens ≤ max_len` it writes the new
rows at offset `cursor` and advances the cursor by `new_tokens` (the part of
the claim that holds); when `cursor + new_tokens > max_len` it still
advances the cursor by `new_tokens` and writes the rows at the clamped
offset `max_len - new_tokens`, overwriting existing entries. -/
theorem cache_append_clamped_behavior (cache : KVCache) (n : ℕ)
    (k v : ℕ → ℕ → ℕ → ℚ) (hn : n ≤ cache.maxLen) :
    (appendKV cache n k v).index = cache.index + n ∧
    (cache.index + n ≤ cache.maxLen →
      (∀ s h d, cache.index ≤ s → s < cache.index + n →
        (appendKV cache n k v).keyBuf s h d = k (s - cache.index) h d ∧
        (appendKV cache n k v).valBuf s h d = v (s - cache.index) h d) ∧
      (∀ s h d, s < cache.index ∨ cache.index + n ≤ s →
        (appendKV cache n k v).keyBuf s h d = cache.keyBuf s h d ∧
        (appendKV cache n k v).valBuf s h d = cache.valBuf s h d)) ∧
    (cache.maxLen < cache.index + n →
      ∀ s h d, cache.maxLen - n ≤ s → s < cache.maxLen →
        (appendKV cache n k v).keyBuf s h d = k (s - (cache.maxLen - n)) h d ∧
        (appendKV cache n k v).valBuf s h d = v (s - (cache.maxLen - n)) h d) := by
  refine ⟨rfl, fun hle => ⟨fun s h d hs1 hs2 => ?_, fun s h d hs => ?_⟩,
    fun hgt s h d hs1 hs2 => ?_⟩
  · have hst : dusStart cache.maxLen cache.index n = cache.index := by
      unfold dusStart; omega
    constructor <;>
      · show (if dusStart cache.maxLen cache.index n ≤ s ∧
              s < dusStart cache.maxLen cache.index n + n then _ else _) = _
        rw [hst, if_pos ⟨hs1, hs2⟩]
  · have hst : dusStart cache.maxLen cache.index n = cache.index := by
      unfold dusStart; omega
    constructor <;>
      · show (if dusStart cache.maxLen cache.index n ≤ s ∧
              s < dusStart cache.maxLen cache.index n + n then _ else _) = _
        rw [hst, if_neg (by omega)]
  · have hst : dusStart cache.maxLen cache.index n = cache.maxLen - n := by
      unfold dusStart; omega
    constructor <;>
      · show (if dusStart cache.maxLen cache.index n ≤ s ∧
              s < dusStart cache.maxLen cache.index n + n then _ else _) = _
        rw [hst, if_pos ⟨hs1, by omega⟩]

/-- Claim C2, witness: appending one token to a length-4 cache with cursor 2
advances the cursor to 3. -/
theorem cache_append_clamped_behavior_witness :
    (appendKV cW 1 zT3 zT3).index = cW.index + 1 :=
  (cache_append_clamped_behavior cW 1 zT3 zT3 (by decide)).1

/-- Claim C2, counterexample: a length-2 cache filled by two one-token
appends has cursor 2 = max_len; a third one-token append would, per the
claim, fail with a CapacityError and leave the cursor at 2 — instead it
returns normally with cursor 3. -/
theorem cache_append_capacity_counterexample :
    (appendKV (appendKV (appendKV (initCacheFromCall 2 1 1) 1 zT3 zT3)
        1 zT3 zT3) 1 zT3 zT3).index = 3 ∧
    (appendKV (appendKV (initCacheFromCall 2 1 1) 1 zT3 zT3) 1 zT3 zT3).index = 2 ∧
    (3 : ℕ) ≠ 2 := by
  exact ⟨rfl, rfl, by decide⟩

/-- Claim C3 (causal masking).  With an active cache the causal mask is
sliced at `mask_shift` = the cursor **after** `concatenate_to_cache_` has
advanced it, so a cached prefill of 2 tokens into a fresh length-4 cache
slices causal rows 2-3 instead of 0-1: the combined mask allows query
position 0 to attend key position 1, and the attention weight there is
`1/2 ≠ 0` (evaluated with the exponential stubbed to the constant 1 and
zero projections, for which the two allowed keys share the weight evenly). -/
theorem cached_prefill_causality_violation :
    (attentionCallCached P1 8 c3cache 2 (fun _ => true) zT3 zT3 zT3).2.1 0 1 = true ∧
    (attentionCallCached P1 8 c3cache 2 (fun _ => true) zT3 zT3 zT3).2.2 0 0 1 = 1 / 2 ∧
    ((1 : ℚ) / 2 ≠ 0) := by
  refine ⟨by decide, ?_, by norm_num⟩
  simp only [attentionCallCached, attnWeight, softmaxMasked]
  rw [if_pos (by decide)]
  have hsum : (∑ j' ∈ (Finset.range (appendKV c3cache 2 zT3 zT3).maxLen).filter
      (fun j' => ((fun i j => (decide (j < (appendKV c3cache 2 zT3 zT3).index) && (fun _ => true) j) &&
        cachedCausal 8 2 (appendKV c3cache 2 zT3 zT3).index i j) 0 j' = true)),
      P1.ex (attnScores P1 c3cache.headDim zT3 (appendKV c3cache 2 zT3 zT3).keyBuf 0 0 j')) = 2 := by
    rw [show P1.ex = fun _ => (1 : ℚ) from rfl]
    rw [Finset.sum_const]
    norm_num
    decide
  rw [hsum]
  norm_num [P1]

/-- Claim C4 (amended): the cache buffers are created from the
**post-`repeat_kv`** key/value tensors, so their head axis carries
`num_key_value_heads · (num_attention_heads / num_key_value_heads)`
= `num_attention_heads` heads (for the divisible head split), not
`num_key_value_heads`; the cursor starts at 0 and each append adds exactly
the appended length with no upper-bound enforcement, so `cursor ≤ max_len`
holds only while the total appended length does. -/
theorem cache_buffer_heads_and_cursor (cfg : MistralCfg) (L : ℕ)
    (hdvd : cfg.num_key_value_heads ∣ cfg.num_attention_heads) :
    (initCacheForModel cfg L).nHeads = cfg.num_attention_heads ∧
    (initCacheForModel cfg L).index = 0 ∧
    (initCacheForModel cfg L).maxLen = L ∧
    ∀ (cache : KVCache) (n : ℕ) (k v : ℕ → ℕ → ℕ → ℚ),
      (appendKV cache n k v).index = cache.index + n ∧
      (appendKV cache n k v).maxLen = cache.maxLen ∧
      (appendKV cache n k v).nHeads = cache.nHeads := by
  refine ⟨?_, rfl, rfl, fun cache n k v => ⟨rfl, rfl, rfl⟩⟩
  show repeatKvHeads cfg.num_key_value_heads
      (cfg.num_attention_heads / cfg.num_key_value_heads) = _
  unfold repeatKvHeads
  split
  · next h1 => rw [← Nat.div_mul_cancel hdvd, h1, one_mul]
  · exact Nat.mul_div_cancel' hdvd

/-- Claim C4, witness: for 2 query heads over 1 kv head the created buffers
carry 2 heads. -/
theorem cache_buffer_heads_and_cursor_witness :
    (initCacheForModel cfg8 4).nHeads = cfg8.num_attention_heads :=
  (cache_buffer_heads_and_cursor cfg8 4 (by decide)).1

/-- Claim C4, counterexample: with `num_attention_heads = 2`,
`num_key_value_heads = 1` the buffers carry 2 heads, not the claimed 1; and
two 3-token appends into a length-4 cache leave the cursor at 6 > 4,
violating the claimed `cursor ≤ max_len` invariant. -/
theorem cache_shape_cursor_counterexample :
    (initCacheForModel cfg8 4).nHeads = 2 ∧
    cfg8.num_key_value_heads = 1 ∧
    (2 : ℕ) ≠ 1 ∧
    (appendKV (appendKV (initCacheForModel cfg8 4) 3 zT3 zT3) 3 zT3 zT3).index = 6 ∧
    ¬ (6 ≤ (initCacheForModel cfg8 4).maxLen) := by
  exact ⟨rfl, rfl, by decide, rfl, by decide⟩

/-- Claim C5 (diagnostics collection).  Requesting attention weights cannot
return them: inside each decoder layer `outputs += attention_output[1]` adds
a raw array to a tuple and raises `TypeError` (lines 445-447) — and even
apart from that, the collection accumulates into the boolean
`output_attentions` flag instead of `all_attentions` (line 651), returns the
never-updated `all_attentions`, and the attention layer returns
`attn_output` rather than the attention weights (line 384).  Requesting only
hidden states succeeds but returns the per-layer **inputs** (the module
appends the final normed state afterwards, lines 724-726).  Evaluated for a
one-layer stack whose layer function is abstracted as the identity pair. -/
theorem diagnostics_collection_type_error :
    collectionCall (fun _ a => (a, a)) 1 true false (fun _ => 0)
        = Except.error "TypeError: can only concatenate tuple to tuple" ∧
    collectionCall (fun _ a => (a, a)) 1 false true (fun _ => 0)
        = Except.ok (fun _ => (0 : ℚ), PyV.tup [PyV.arr fun _ => 0], PyV.pynone) := by
  constructor <;> rfl

/-- Claim C6 (rotary norm preservation).  For every table produced by
`precompute_freq_cis` (any scaling method that does not raise), every
`position_ids` gather, head, and even channel count `2m`: under the
idealized real-arithmetic reading where the cosine/sine primitives satisfy
`cos² + sin² = 1`, the rotation applied by `apply_rotary_emb` preserves the
sum of squared channels — the squared L2 norm — of each per-head vector. -/
theorem rotary_preserves_norm (P : Prims) (method : Option String)
    (dim endLen : ℕ) (theta sf : ℚ) (tbl : ℕ → ℕ → ℚ × ℚ)
    (htbl : precompute_freq_cis P method dim endLen theta sf = Except.ok tbl)
    (hP : ∀ t : ℚ, P.cosf t ^ 2 + P.sinf t ^ 2 = 1)
    (posIds : ℕ → ℕ) (x : ℕ → ℕ → ℕ → ℚ) (s h m : ℕ) :
    ∑ ch ∈ Finset.range (2 * m),
        apply_rotary_emb (fun i u => tbl (posIds i) u) x s h ch ^ 2
      = ∑ ch ∈ Finset.range (2 * m), x s h ch ^ 2 := by
  have hform : ∀ p u', ∃ a : ℚ, tbl p u' = (P.cosf a, P.sinf a) := by
    cases method with
    | none =>
        simp only [precompute_freq_cis] at htbl
        injection htbl with htbl
        exact fun p u' => ⟨_, by rw [← htbl]; rfl⟩
    | some mm =>
        simp only [precompute_freq_cis] at htbl
        by_cases h1 : mm = "linear"
        · rw [if_pos h1] at htbl
          injection htbl with htbl
          exact fun p u' => ⟨_, by rw [← htbl]; rfl⟩
        · rw [if_neg h1] at htbl
          by_cases h2 : mm = "dynamic"
          · rw [if_pos h2] at htbl
            injection htbl with htbl
            exact fun p u' => ⟨_, by rw [← htbl]; rfl⟩
          · rw [if_neg h2] at htbl
            exact absurd htbl (by simp)
  apply rotary_sum_sq
  intro u
  obtain ⟨a, ha⟩ := hform (posIds s) u
  simp only [ha]
  exact hP a

/-- Claim C6, witness: the rotation of the channel vector `(0, 1, 2, 3)` by
the table of `precompute_freq_cis P1 none 4 8 10000 1` (with `cos ≡ 1`,
`sin ≡ 0` on the unit circle) keeps its squared norm. -/
theorem rotary_preserves_norm_witness :
    ∑ ch ∈ Finset.range (2 * 2),
        apply_rotary_emb (fun i u => tblW (id i) u) (fun _ _ ch => (ch : ℚ)) 0 0 ch ^ 2
      = ∑ ch ∈ Finset.range (2 * 2), (fun _ _ ch => (ch : ℚ)) 0 0 ch ^ 2 :=
  rotary_preserves_norm P1 none 4 8 10000 1 tblW rfl
    (fun t => by norm_num [P1]) id (fun _ _ ch => (ch : ℚ)) 0 0 2

/-- Claim C7 (grouped-query equivalence).  `repeat_kv` is a pure
broadcast-repeat: every replicated head `h < n_kv · n_rep` reads the
original kv head `h % n_kv` and nothing else, and both the attention
weights and the attention output computed over the replicated key/value
tensors equal those computed directly against that one original head (the
spec-side comparators `attnWeightSingle`/`attnOutputSingle`), for every
mask, scale, query tensor and key length. -/
theorem grouped_query_head_equiv (P : Prims) (nKv nRep hd klen : ℕ)
    (mask : ℕ → ℕ → Bool) (q kO vO : ℕ → ℕ → ℕ → ℚ) (h : ℕ)
    (hh : h < nKv * nRep) :
    (∀ s d, repeat_kv nKv nRep kO s h d = kO s (h % nKv) d) ∧
    (∀ i j, attnWeight P hd klen mask q (repeat_kv nKv nRep kO) h i j
          = attnWeightSingle P hd klen mask q kO (h % nKv) h i j) ∧
    (∀ i d, attnOutput P hd klen mask q (repeat_kv nKv nRep kO)
              (repeat_kv nKv nRep vO) h i d
          = attnOutputSingle P hd klen mask q kO vO (h % nKv) h i d) := by
  have hk := repeat_kv_apply nKv nRep kO h hh
  have hv := repeat_kv_apply nKv nRep vO h hh
  have hsc : ∀ i, attnScores P hd q (repeat_kv nKv nRep kO) h i
      = attnScoresSingle P hd q kO (h % nKv) h i := by
    intro i
    funext j
    unfold attnScores attnScoresSingle
    congr 1
    exact Finset.sum_congr rfl fun d _ => by rw [hk j d]
  have hw : ∀ i j, attnWeight P hd klen mask q (repeat_kv nKv nRep kO) h i j
      = attnWeightSingle P hd klen mask q kO (h % nKv) h i j := by
    intro i j
    unfold attnWeight attnWeightSingle
    rw [hsc i]
  refine ⟨hk, hw, fun i d => ?_⟩
  unfold attnOutput attnOutputSingle
  exact Finset.sum_congr rfl fun j _ => by rw [hw i j, hv j d]

/-- Claim C7, witness: with 1 kv head replicated to 2 query heads, the
weight of query head 1 over the replicated keys equals the weight taken
directly against kv head `1 % 1`. -/
theorem grouped_query_head_equiv_witness :
    attnWeight P1 1 1 (fun _ _ => true) zT3 (repeat_kv 1 2 zT3) 1 0 0
      = attnWeightSingle P1 1 1 (fun _ _ => true) zT3 zT3 (1 % 1) 1 0 0 :=
  (grouped_query_head_equiv P1 1 2 1 1 (fun _ _ => true) zT3 zT3 zT3 1
    (by decide)).2.1 0 0

/-- Claim C8 (amended): the frequency table is built exactly once at model
construction by `precompute_freq_cis` with `method = None`,
`scaling_factor = 1`, head dimension `hidden_size / num_attention_heads` and
table length `2 · max_position_embeddings`, but with the **hardcoded
default** `theta = 10000`: `config.rope_theta` (and any scaling
configuration) is ignored, as the first conjunct — invariance of the table
under arbitrary changes of `rope_theta` — shows.  The one table is what the
module shares with every layer call. -/
theorem freq_table_hardcoded_construction (P : Prims) (cfg : MistralCfg) (t t' : ℚ) :
    moduleFreqCis P { cfg with rope_theta := t }
        = moduleFreqCis P { cfg with rope_theta := t' } ∧
    moduleFreqCis P cfg
        = precompute_freq_cis P none (cfg.hidden_size / cfg.num_attention_heads)
            (cfg.max_position_embeddings * 2) 10000 1 :=
  ⟨rfl, rfl⟩

/-- Claim C8, counterexample: with `rope_theta = 5` in the config and a
power primitive that distinguishes bases, the table entry at position 1,
frequency index 1 is `1/10000` — the hardcoded default — whereas the table
the claim describes (built from the config's `rope_theta`) has `1/5` there. -/
theorem freq_table_ignores_rope_theta :
    (moduleFreqCis Pdist cfg8).map (fun tb => (tb 1 1).1)
        = Except.ok ((1 : ℚ) / 10000) ∧
    (precompute_freq_cis Pdist none (cfg8.hidden_size / cfg8.num_attention_heads)
        (cfg8.max_position_embeddings * 2) cfg8.rope_theta 1).map (fun tb => (tb 1 1).1)
        = Except.ok ((1 : ℚ) / 5) ∧
    ((1 : ℚ) / 10000) ≠ (1 : ℚ) / 5 := by
  refine ⟨?_, ?_, by norm_num⟩ <;>
    · simp only [moduleFreqCis, precompute_freq_cis, Except.map]
      norm_num [rowEntry, baseFreq, Pdist, cfg8]

/-- Claim C9 (weight tying).  `FlaxMistralForCausalLMModule.setup` defines
only the attributes `model` and `lm_head`, but the tied branch of
`__call__` reads `self.transformer` (and then the parameter `wte`, which
the inner module — whose embedding is `embed_tokens` — also lacks): with
`tie_word_embeddings` enabled every forward call raises `AttributeError`
instead of projecting through the transposed embedding; with it disabled
the independent `lm_head` matrix is applied as claimed. -/
theorem weight_tying_attribute_error (wLm : ℕ → ℕ → ℚ) (hDim : ℕ) (hs : ℕ → ℕ → ℚ) :
    causalLMProject true wLm hDim hs
        = Except.error "AttributeError: no attribute transformer" ∧
    causalLMProject false wLm hDim hs = Except.ok (denseNoBias wLm hDim hs) :=
  ⟨rfl, rfl⟩

/-- Claim C10 (sharding coverage).  For every parameter name the model
produces (any layer count) and both profiles, first-match resolution over
`get_partition_rules` succeeds — the trailing `'.*'` wildcard matches every
name — and the returned axis assignment is a non-empty tuple. -/
theorem partition_rules_cover_params (fullyFsdp : Bool) (n : ℕ) (name : List Char)
    (_hmem : name ∈ mistralParamNames n) :
    ∃ ps, resolveRules (get_partition_rules fullyFsdp) name = some ps ∧ ps ≠ [] := by
  cases fullyFsdp with
  | false =>
      apply resolveRules_total
      · decide
      · exact ⟨([[]], [none]), by decide, by simp [containsSub_nil]⟩
  | true =>
      apply resolveRules_total
      · decide
      · exact ⟨([[]], [some "fsdp"]), by decide, by simp [containsSub_nil]⟩

/-- Claim C10, witness: the embedding parameter of a one-layer model
resolves under the fully-sharded profile. -/
theorem partition_rules_cover_params_witness :
    (resolveRules (get_partition_rules true)
      "model/embed_tokens/embedding".data).isSome = true := by
  obtain ⟨ps, h1, _⟩ := partition_rules_cover_params true 1
    "model/embed_tokens/embedding".data (by simp [mistralParamNames])
  rw [h1]
  rfl
